import Mathlib

set_option linter.unusedVariables false

/-!
Verification of the VirtuNovo city scene (src/CityScene.jsx): the local
key-value store, the startup migrations, the role/account-type access
gates, and the analytics aggregation pipeline, shallowly embedded in Lean.

Modelling conventions:
* A JavaScript value that may be `undefined` is an `Option`; JS strict
  equality `===` on two possibly-undefined strings is `==` on
  `Option String` (`undefined === undefined` is `true`).
* JS truthiness of an optional string (`s || d`, `!s`, `s && t`) treats
  `undefined` and the empty string as falsy (`jsTruthy`).
* JS objects are association lists in insertion order (`Object.values`
  and spread `\x7b...a, ...b\x7d` preserve it); numeric event payloads
  (`seconds`) are modelled as integers.
-/

/-- JS truthiness of a possibly-undefined string: `undefined` and `""` are falsy. -/
def jsTruthy : Option String → Bool
  | none => false
  | some s => !s.isEmpty

/-- JS `x || d` on a possibly-undefined string with a string default. -/
def orDefault (s : Option String) (d : String) : String :=
  match s with
  | none => d
  | some x => if x.isEmpty then d else x

/-- The `brand` sub-record of an asset (CityScene.jsx lines 1655-1663):
every field is filled in independently by the editor, so each is optional. -/
structure Brand where
  orgId : Option String
  orgName : Option String
  brandEmail : Option String
  startISO : Option String
  endISO : Option String
  priceTag : Option String
deriving Repr, DecidableEq

/-- The organization context attached to an organization account
(CityScene.jsx line 331). -/
structure OrgContext where
  orgId : Option String
  orgName : Option String
  orgIndustry : Option String
  role : Option String
deriving Repr, DecidableEq

/-- A stored user record (the fields the gating and migration code reads). -/
structure User where
  email : Option String
  name : Option String
  role : Option String
  accountType : Option String
  orgContext : Option OrgContext
  blocked : Bool
deriving Repr, DecidableEq

/-- An in-scene placement as read by the brand panel: its optional `brand`
sub-record and sponsor name. -/
structure Asset where
  brand : Option Brand
  sponsorName : Option String
deriving Repr, DecidableEq

/-- CityScene.jsx line 1929: `canSeeMetrics = isAdmin || (selectedItem &&
selectedItem.brand && selectedItem.brand.orgId === currentUser?.orgContext?.orgId)`. -/
def canSeeMetrics (isAdmin : Bool) (selectedItem : Option Asset)
    (currentUser : Option User) : Bool :=
  isAdmin ||
    (match selectedItem with
     | none => false
     | some item =>
       match item.brand with
       | none => false
       | some b => b.orgId == ((currentUser.bind User.orgContext).bind OrgContext.orgId))

/-- CityScene.jsx line 1676: `canSeeBrandMode = isAdmin ||
(currentUser?.accountType === ACCOUNT_TYPES.ORGANIZATION)`. -/
def canSeeBrandMode (isAdmin : Bool) (currentUser : Option User) : Bool :=
  isAdmin || ((currentUser.bind User.accountType) == some "organization")

/-- The master feature flags (CityScene.jsx lines 117-153). -/
structure MasterFlags where
  maintenanceMode : Bool
  allowSignups : Bool
  showChat : Bool
  showLabels : Bool
  adminSidebar : Bool
  showCustomerProgressDrawer : Bool
  enableAuditLog : Bool
  enableDashboardKPI : Bool
  enableBrandMode : Bool
  enableFlightPlan : Bool
  enableCreativeChecker : Bool
  enableLeadsPanel : Bool
  enableCommandPalette : Bool
  enableGuidedTour : Bool
  enableSeasonPass : Bool
  enableEventDome : Bool
  enableHoloStage : Bool
  enableAutoExpoDome : Bool
  enableBrandCommandCenter : Bool
  enableLiveBroadcastUI : Bool
  enableCrowdFX : Bool
  enablePortals : Bool
  enableDomeScheduler : Bool
  enableOneClickExports : Bool
  missionsForGuest : Bool
  enableAssetIdsOverlay : Bool
  enableMasterControlPalette : Bool
  enableBrandModeGate : Bool
  enablePriceTagGate : Bool
deriving Repr, DecidableEq

/-- CityScene.jsx `DEFAULT_MASTER_FLAGS` (lines 117-153). -/
def DEFAULT_MASTER_FLAGS : MasterFlags :=
  { maintenanceMode := false
  , allowSignups := true
  , showChat := true
  , showLabels := true
  , adminSidebar := true
  , showCustomerProgressDrawer := true
  , enableAuditLog := true
  , enableDashboardKPI := true
  , enableBrandMode := true
  , enableFlightPlan := true
  , enableCreativeChecker := true
  , enableLeadsPanel := true
  , enableCommandPalette := true
  , enableGuidedTour := true
  , enableSeasonPass := true
  , enableEventDome := true
  , enableHoloStage := true
  , enableAutoExpoDome := true
  , enableBrandCommandCenter := true
  , enableLiveBroadcastUI := true
  , enableCrowdFX := true
  , enablePortals := true
  , enableDomeScheduler := true
  , enableOneClickExports := true
  , missionsForGuest := true
  , enableAssetIdsOverlay := true
  , enableMasterControlPalette := true
  , enableBrandModeGate := true
  , enablePriceTagGate := true }

/-- The pieces of React component state that drive the overlays of
`SceneContent` (CityScene.jsx lines 2490-2500). -/
structure UIState where
  showBrandPanel : Bool
  showProgressDrawer : Bool
  showMissions : Bool
  showVault : Bool
deriving Repr, DecidableEq

/-- The render conditions of the world-view overlays of `SceneContent`. -/
structure SceneVisibility where
  missionsButton : Bool
  vaultButton : Bool
  brandModeButton : Bool
  brandPanel : Bool
  progressDrawerToggle : Bool
  progressDrawer : Bool
  missionsModal : Bool
  vaultModal : Bool
deriving Repr, DecidableEq

/-- The render conditions of `SceneContent`, read off the JSX:
the Missions and Vault buttons (lines 2955-2956) carry no condition beyond
being in the world view; the Brand Mode button (line 2960) is gated only by
`masterFlags.enableBrandMode`; the brand panel (line 2812) by
`masterFlags.enableBrandMode && showBrandPanel`; the progress drawer and its
HUD toggle (lines 2807, 2977) by `!isAdmin && masterFlags.showCustomerProgressDrawer`;
the missions/vault modals (lines 3018-3019) by their open state.
`currentUser` is in scope in the component but none of these conditions read it. -/
def sceneVisibility (masterFlags : MasterFlags) (isAdmin : Bool)
    (currentUser : Option User) (worldView : Bool) (ui : UIState) : SceneVisibility :=
  { missionsButton := worldView
  , vaultButton := worldView
  , brandModeButton := worldView && masterFlags.enableBrandMode
  , brandPanel := masterFlags.enableBrandMode && ui.showBrandPanel
  , progressDrawerToggle := worldView && (!isAdmin && masterFlags.showCustomerProgressDrawer)
  , progressDrawer := !isAdmin && masterFlags.showCustomerProgressDrawer
  , missionsModal := ui.showMissions
  , vaultModal := ui.showVault }

/-- An analytics event as built by `logEvent` (CityScene.jsx line 186):
`type` is always set, the payload fields are optional. -/
structure AnalyticsEvent where
  type : String
  timestamp : Option String
  campaignId : Option String
  sponsorName : Option String
  seconds : Option Int
  id : Option String
deriving Repr, DecidableEq

/-- One per-campaign aggregate bucket (CityScene.jsx line 1490). -/
structure CampaignAgg where
  campaignId : String
  sponsorName : String
  impressions : Nat
  clicks : Nat
  dwell : Int
deriving Repr, DecidableEq

/-- Lookup in an insertion-ordered association list (a JS object read). -/
def lookupAssoc {α : Type} (m : List (String × α)) (k : String) : Option α :=
  (m.find? (fun p => p.1 == k)).map Prod.snd

/-- JS object write `map[k] = f (map[k] ?? dflt)`: update in place when the
key exists, append a fresh entry otherwise. -/
def updateAssoc {α : Type} (m : List (String × α)) (k : String)
    (f : α → α) (dflt : α) : List (String × α) :=
  match m with
  | [] => [(k, f dflt)]
  | p :: rest => if p.1 = k then (p.1, f p.2) :: rest else p :: updateAssoc rest k f dflt

/-- The fresh bucket `\x7bcampaignId: id, sponsorName: e.sponsorName || 'N/A',
impressions: 0, clicks: 0, dwell: 0\x7d` (CityScene.jsx line 1490). -/
def initAgg (e : AnalyticsEvent) : CampaignAgg :=
  { campaignId := orDefault e.campaignId "N/A"
  , sponsorName := orDefault e.sponsorName "N/A"
  , impressions := 0
  , clicks := 0
  , dwell := 0 }

/-- The three per-event counters of the aggregation loop
(CityScene.jsx lines 1491-1493). -/
def applyEvent (a : CampaignAgg) (e : AnalyticsEvent) : CampaignAgg :=
  let a1 := if e.type == "billboard_impression" then { a with impressions := a.impressions + 1 } else a
  let a2 := if e.type == "billboard_click" then { a1 with clicks := a1.clicks + 1 } else a1
  if e.type == "billboard_dwell" then { a2 with dwell := a2.dwell + (e.seconds.getD 0) } else a2

/-- One iteration of the `logs.forEach` aggregation body
(CityScene.jsx lines 1488-1494): bucket key is `e.campaignId || 'N/A'`. -/
def stepCampaign (m : List (String × CampaignAgg)) (e : AnalyticsEvent) :
    List (String × CampaignAgg) :=
  updateAssoc m (orDefault e.campaignId "N/A") (fun a => applyEvent a e) (initAgg e)

/-- The JS object `map` built by `metricsByCampaign` before `Object.values`. -/
def buildCampaignMap (logs : List AnalyticsEvent) : List (String × CampaignAgg) :=
  logs.foldl stepCampaign []

/-- CityScene.jsx lines 1485-1496: `metricsByCampaign`, the per-campaign
aggregates over the whole persisted events log (no ownership filter). -/
def metricsByCampaign (logs : List AnalyticsEvent) : List CampaignAgg :=
  (buildCampaignMap logs).map Prod.snd

/-- The metrics record of `BrandPreviewPanel` (CityScene.jsx lines 1932-1938). -/
structure PanelMetrics where
  impressions : Nat
  clicks : Nat
  ctr : ℚ
  dwell : String
deriving Repr, DecidableEq

/-- CityScene.jsx lines 1932-1938: the brand panel aggregates the whole
analytics log by event type only, substituting the demo constants 1250 and 85
when a count is zero (JS `count || 1250`), and returns `null` (redacted) when
`canSeeMetrics` is false. The float `(clicks / impressions) * 100` is modelled
as a rational; `toFixed(2)` is display formatting on top of it. -/
def brandPanelMetrics (analytics : List AnalyticsEvent) (canSee : Bool) :
    Option PanelMetrics :=
  if !canSee then none
  else
    let i0 := (analytics.filter (fun a => a.type == "billboard_impression")).length
    let c0 := (analytics.filter (fun a => a.type == "billboard_click")).length
    let impressions := if i0 = 0 then 1250 else i0
    let clicks := if c0 = 0 then 85 else c0
    some { impressions := impressions
         , clicks := clicks
         , ctr := (clicks : ℚ) / (impressions : ℚ) * 100
         , dwell := "4.2s" }

/-- CityScene.jsx lines 2198-2201: the dashboard KPI click-through rate,
`impressions > 0 ? ((clicks/impressions)*100).toFixed(2) : '0.00'`. -/
def kpisCtr (analytics : List AnalyticsEvent) : ℚ :=
  let impressions := (analytics.filter (fun a => a.type == "billboard_impression")).length
  let clicks := (analytics.filter (fun a => a.type == "billboard_click")).length
  if 0 < impressions then (clicks : ℚ) / (impressions : ℚ) * 100 else 0

/-- The CTR shown per campaign row (CityScene.jsx line 1579):
`m.impressions>0 ? ((m.clicks/m.impressions)*100).toFixed(1) : '0.0'`. -/
def ctrDisplay (m : CampaignAgg) : ℚ :=
  if 0 < m.impressions then (m.clicks : ℚ) / (m.impressions : ℚ) * 100 else 0

/-- The CTR reported for campaign `cid`: the value rendered on its row of the
Campaign Metrics list, `0` when the campaign has no row. -/
def campaignCtr (logs : List AnalyticsEvent) (cid : String) : ℚ :=
  match (metricsByCampaign logs).find? (fun m => m.campaignId == cid) with
  | some m => ctrDisplay m
  | none => 0

/-- Events that fall into the bucket of campaign `cid`. -/
def eventsFor (logs : List AnalyticsEvent) (cid : String) : List AnalyticsEvent :=
  logs.filter (fun e => orDefault e.campaignId "N/A" == cid)

/-- The number of events of type `ty` in campaign `cid`'s bucket. -/
def countEvents (logs : List AnalyticsEvent) (ty : String) (cid : String) : Nat :=
  ((eventsFor logs cid).filter (fun e => e.type == ty)).length

/-- Modelled from the spec (claim side of C2, spec section 4.4): the ownership
filter that must run before aggregation — keep only events whose underlying
placement's `brand.orgId` matches the viewer's organization. -/
def specScopedEvents (scene : List (String × Asset)) (viewerOrgId : String)
    (logs : List AnalyticsEvent) : List AnalyticsEvent :=
  logs.filter (fun e =>
    match e.id with
    | none => false
    | some pid =>
      match (lookupAssoc scene pid).bind Asset.brand with
      | none => false
      | some b => b.orgId == some viewerOrgId)

/-- CityScene.jsx lines 185-189: `logEvent` pushes the entry onto the
analytics log and, when the result is longer than 200, shifts off the head. -/
def logEventAnalytics (logs : List AnalyticsEvent) (e : AnalyticsEvent) :
    List AnalyticsEvent :=
  if 200 < (logs ++ [e]).length then (logs ++ [e]).tail else logs ++ [e]

/-- CityScene.jsx lines 190-194: the same entry is also pushed onto the
persisted campaign events log when `payload.campaignId || payload.sponsorName`
is truthy — with no cap. -/
def logEventCampaign (campLogs : List AnalyticsEvent) (e : AnalyticsEvent) :
    List AnalyticsEvent :=
  if jsTruthy e.campaignId || jsTruthy e.sponsorName then campLogs ++ [e] else campLogs

/-- JS object spread `\x7b...d, ...s\x7d`: the keys of `d` in order, each
taking `s`'s value when `s` also has the key, followed by the keys of `s`
absent from `d`, in order. -/
def spreadObj {α : Type} (d s : List (String × α)) : List (String × α) :=
  d.map (fun p => (p.1, (lookupAssoc s p.1).getD p.2)) ++
    s.filter (fun p => (lookupAssoc d p.1).isNone)

/-- CityScene.jsx line 2539: `mergedFlags = \x7b ...DEFAULT_MASTER_FLAGS,
...currentFlags \x7d` — defaults extended by the stored flags, stored values
winning on collision. -/
def mergeFlags (defaults stored : List (String × Bool)) : List (String × Bool) :=
  spreadObj defaults stored

/-- CityScene.jsx lines 2547-2550: the users migration maps over the stored
list and replaces a falsy `role` by `ROLES.VISITOR`. -/
def migrateUsers (users : List User) : List User :=
  users.map (fun u => if !(jsTruthy u.role) then { u with role := some "VISITOR" } else u)

/-- A guest session: account type `guest`, no organization context
(CityScene.jsx line 109 and the signup flow at lines 329-333). -/
def guestUser : User :=
  { email := some "guest@example.com"
  , name := some "Guest"
  , role := some "VISITOR"
  , accountType := some "guest"
  , orgContext := none
  , blocked := false }

/-- An asset whose `brand` record was created through the date/price inputs
(CityScene.jsx lines 1660-1663) and therefore has no `orgId`. -/
def assetNoOrgId : Asset :=
  { brand := some
      { orgId := none
      , orgName := none
      , brandEmail := none
      , startISO := some "2025-01-01"
      , endISO := none
      , priceTag := some "$5k/mo" }
  , sponsorName := some "VirtuTech" }

/-- An asset rented by organization `ORG-B`. -/
def assetOfOrgB : Asset :=
  { brand := some
      { orgId := some "ORG-B"
      , orgName := some "CyberCola"
      , brandEmail := none
      , startISO := none
      , endISO := none
      , priceTag := none }
  , sponsorName := some "CyberCola" }

/-- A scene in which placement `BILLBOARD_0` is rented by `ORG-B`. -/
def sceneOrgB : List (String × Asset) := [("BILLBOARD_0", assetOfOrgB)]

/-- An impression event recorded against `ORG-B`'s placement. -/
def evForeign : AnalyticsEvent :=
  { type := "billboard_impression"
  , timestamp := some "2025-06-01T12:00:00.000Z"
  , campaignId := some "c1"
  , sponsorName := some "CyberCola"
  , seconds := none
  , id := some "BILLBOARD_0" }

/-- UI state with the brand panel open and everything else closed. -/
def uiBrandOpen : UIState :=
  { showBrandPanel := true
  , showProgressDrawer := false
  , showMissions := false
  , showVault := false }

/-- The default flags with `missionsForGuest` switched off. -/
def flagsMissionsOff : MasterFlags :=
  { DEFAULT_MASTER_FLAGS with missionsForGuest := false }

/-- An impression event for campaign `X`. -/
def evImpX : AnalyticsEvent :=
  { type := "billboard_impression"
  , timestamp := none
  , campaignId := some "X"
  , sponsorName := some "Acme"
  , seconds := none
  , id := some "BILLBOARD_1" }

/-- A click event for campaign `X`. -/
def evClkX : AnalyticsEvent :=
  { type := "billboard_click"
  , timestamp := none
  , campaignId := some "X"
  , sponsorName := some "Acme"
  , seconds := none
  , id := some "BILLBOARD_1" }

/-- A log holding 10 impression events and 3 click events for campaign `X`. -/
def demoLogs : List AnalyticsEvent :=
  List.replicate 10 evImpX ++ List.replicate 3 evClkX

/-- A small defaults object, as key-value pairs (keys distinct). -/
def flagsDefaultsKV : List (String × Bool) :=
  [("enableAuditLog", true), ("missionsForGuest", true), ("enableBrandMode", true)]

/-- A stored flags object: one collision (stored wins) and one legacy key. -/
def flagsStoredKV : List (String × Bool) :=
  [("missionsForGuest", false), ("legacyFlag", true)]

/-- A stored user with a falsy `role`. -/
def userNoRole : User :=
  { email := some "a@b.c"
  , name := some "A"
  , role := none
  , accountType := some "individual"
  , orgContext := none
  , blocked := false }

/-- A stored user that already has a role. -/
def userWithRole : User :=
  { email := some "d@e.f"
  , name := some "D"
  , role := some "EDITOR"
  , accountType := some "organization"
  , orgContext := none
  , blocked := false }

/-- A stored user list mixing the two. -/
def usersBefore : List User := [userNoRole, userWithRole]

/-! ## The local key-value store (C10): JSON values, codec, load/save -/

/-- A JSON-safe value (spec section 4.1: the store serializes values with the
platform JSON codec). Strings are sequences of characters; numbers are
modelled as integers (the store's float formatting is not modelled). -/
inductive JsonValue where
  | null : JsonValue
  | bool : Bool → JsonValue
  | num : Int → JsonValue
  | str : List Char → JsonValue
  | arr : List JsonValue → JsonValue
  | obj : List (List Char × JsonValue) → JsonValue

/-- The decimal digit character of `d` (for `d < 10`). -/
def digitChar : Nat → Char
  | 0 => '0'
  | 1 => '1'
  | 2 => '2'
  | 3 => '3'
  | 4 => '4'
  | 5 => '5'
  | 6 => '6'
  | 7 => '7'
  | 8 => '8'
  | _ => '9'

/-- The numeric value of a digit character. -/
def digitVal (c : Char) : Nat := c.toNat - 48

/-- Decimal digits of `n`, most significant first, in front of `acc`. -/
def natToDigitsAux (n : Nat) (acc : List Char) : List Char :=
  if n < 10 then digitChar n :: acc
  else natToDigitsAux (n / 10) (digitChar (n % 10) :: acc)
termination_by n
decreasing_by exact Nat.div_lt_self (by omega) (by omega)

/-- Decimal digits of `n`, most significant first. -/
def natToDigits (n : Nat) : List Char := natToDigitsAux n []

/-- JSON text of an integer. -/
def encInt (n : Int) : List Char :=
  if n < 0 then '-' :: natToDigits n.natAbs else natToDigits n.natAbs

/-- JSON string-body encoding of one character: quote and backslash are
escaped with a backslash. -/
def encChar (c : Char) : List Char :=
  if c = '\x22' ∨ c = '\x5c' then ['\x5c', c] else [c]

/-- JSON string-body encoding of a character sequence. -/
def encStrBody : List Char → List Char
  | [] => []
  | c :: cs => encChar c ++ encStrBody cs

mutual

/-- Compact JSON text of a value (as `JSON.stringify` produces: no spaces). -/
def encodeJson : JsonValue → List Char
  | .null => "null".toList
  | .bool true => "true".toList
  | .bool false => "false".toList
  | .num n => encInt n
  | .str s => '\x22' :: (encStrBody s ++ ['\x22'])
  | .arr [] => ['[', ']']
  | .arr (v :: vs) => '[' :: (encodeJson v ++ encodeArrRest vs)
  | .obj [] => ['\x7b', '\x7d']
  | .obj (kv :: kvs) => '\x7b' :: (encodeMember kv ++ encodeObjRest kvs)

/-- The remaining elements of an array, each preceded by a comma, then the
closing bracket. -/
def encodeArrRest : List JsonValue → List Char
  | [] => [']']
  | v :: vs => ',' :: (encodeJson v ++ encodeArrRest vs)

/-- One object member: quoted key, colon, value. -/
def encodeMember : List Char × JsonValue → List Char
  | (k, v) => '\x22' :: (encStrBody k ++ ('\x22' :: ':' :: encodeJson v))

/-- The remaining members of an object, each preceded by a comma, then the
closing brace. -/
def encodeObjRest : List (List Char × JsonValue) → List Char
  | [] => ['\x7d']
  | kv :: kvs => ',' :: (encodeMember kv ++ encodeObjRest kvs)

end

mutual

/-- Parse a JSON string body up to its closing quote, undoing `encChar`. -/
def parseStrBody : List Char → Option (List Char × List Char)
  | [] => none
  | c :: r =>
    if c = '\x22' then some ([], r)
    else if c = '\x5c' then parseStrBodyEsc r
    else (parseStrBody r).map (fun p => (c :: p.1, p.2))

/-- Parse the character following a backslash escape, then the rest of the
string body. -/
def parseStrBodyEsc : List Char → Option (List Char × List Char)
  | [] => none
  | d :: r2 => (parseStrBody r2).map (fun p => (d :: p.1, p.2))

end

/-- Numeric value of a digit run, most significant first. -/
def digitsToNat (ds : List Char) : Nat :=
  ds.foldl (fun a c => a * 10 + digitVal c) 0

/-- Parse a nonempty run of decimal digits. -/
def parseNumDigits (s : List Char) : Option (Nat × List Char) :=
  if (s.takeWhile Char.isDigit).isEmpty then none
  else some (digitsToNat (s.takeWhile Char.isDigit), s.dropWhile Char.isDigit)

mutual

/-- Fuelled recursive-descent parser for one JSON value. -/
def parseVal : Nat → List Char → Option (JsonValue × List Char)
  | 0, _ => none
  | fuel + 1, s =>
    match s with
    | [] => none
    | c :: r =>
      if c.isDigit then
        match parseNumDigits (c :: r) with
        | some (n, r2) => some (.num (n : Int), r2)
        | none => none
      else if c = '-' then
        match parseNumDigits r with
        | some (n, r2) => some (.num (-(n : Int)), r2)
        | none => none
      else if c = 'n' then
        match r with
        | 'u' :: 'l' :: 'l' :: r2 => some (.null, r2)
        | _ => none
      else if c = 't' then
        match r with
        | 'r' :: 'u' :: 'e' :: r2 => some (.bool true, r2)
        | _ => none
      else if c = 'f' then
        match r with
        | 'a' :: 'l' :: 's' :: 'e' :: r2 => some (.bool false, r2)
        | _ => none
      else if c = '\x22' then
        match parseStrBody r with
        | some (cs, r2) => some (.str cs, r2)
        | none => none
      else if c = '[' then
        match r with
        | [] => none
        | c2 :: r2 =>
          if c2 = ']' then some (.arr [], r2)
          else
            match parseVal fuel (c2 :: r2) with
            | some (v, r3) =>
              match parseArrRest fuel r3 with
              | some (vs, r4) => some (.arr (v :: vs), r4)
              | none => none
            | none => none
      else if c = '\x7b' then
        match r with
        | [] => none
        | c2 :: r2 =>
          if c2 = '\x7d' then some (.obj [], r2)
          else
            match parseMember fuel (c2 :: r2) with
            | some (kv, r3) =>
              match parseObjRest fuel r3 with
              | some (kvs, r4) => some (.obj (kv :: kvs), r4)
              | none => none
            | none => none
      else none

/-- Parse `]` or a comma-separated continuation of array elements. -/
def parseArrRest : Nat → List Char → Option (List JsonValue × List Char)
  | 0, _ => none
  | fuel + 1, s =>
    match s with
    | [] => none
    | c :: r =>
      if c = ']' then some ([], r)
      else if c = ',' then
        match parseVal fuel r with
        | some (v, r2) =>
          match parseArrRest fuel r2 with
          | some (vs, r3) => some (v :: vs, r3)
          | none => none
        | none => none
      else none

/-- Parse one quoted-key object member. -/
def parseMember : Nat → List Char → Option ((List Char × JsonValue) × List Char)
  | 0, _ => none
  | fuel + 1, s =>
    match s with
    | [] => none
    | c :: r =>
      if c = '\x22' then
        match parseStrBody r with
        | some (k, r2) =>
          match r2 with
          | [] => none
          | c2 :: r3 =>
            if c2 = ':' then
              match parseVal fuel r3 with
              | some (v, r4) => some ((k, v), r4)
              | none => none
            else none
        | none => none
      else none

/-- Parse a closing brace or a comma-separated continuation of members. -/
def parseObjRest : Nat → List Char → Option (List (List Char × JsonValue) × List Char)
  | 0, _ => none
  | fuel + 1, s =>
    match s with
    | [] => none
    | c :: r =>
      if c = '\x7d' then some ([], r)
      else if c = ',' then
        match parseMember fuel r with
        | some (kv, r2) =>
          match parseObjRest fuel r2 with
          | some (kvs, r3) => some (kv :: kvs, r3)
          | none => none
        | none => none
      else none

end

/-- `JSON.parse`: the whole text must be one value with nothing left over. -/
def jsonParse (s : List Char) : Option JsonValue :=
  match parseVal (s.length + 1) s with
  | some (v, []) => some v
  | _ => none

/-- `localStorage.setItem`: replace the value under `k`, or append the entry. -/
def setItem (store : List (String × List Char)) (k : String) (v : List Char) :
    List (String × List Char) :=
  updateAssoc store k (fun _ => v) v

/-- CityScene.jsx line 156: `saveData` serializes the value to JSON text and
writes it under the key. -/
def saveData (store : List (String × List Char)) (key : String) (val : JsonValue) :
    List (String × List Char) :=
  setItem store key (encodeJson val)

/-- CityScene.jsx line 155: `loadData` returns the default when the key is
absent or the stored text is empty (falsy), and the parsed value otherwise;
a parse failure is caught and yields the default. -/
def loadData (store : List (String × List Char)) (key : String) (d : JsonValue) :
    JsonValue :=
  match lookupAssoc store key with
  | none => d
  | some s =>
    if s.isEmpty then d
    else
      match jsonParse s with
      | some v => v
      | none => d

/-- The input ahead does not start with a digit (so it cannot extend a
just-parsed number). -/
def headNotDigit (r : List Char) : Prop :=
  match r with
  | [] => True
  | c :: _ => c.isDigit = false

/-- Append the decimal digits of `n` to the accumulator value `a`
(the value computed by folding the digit run of `n` after `a`). -/
def pushDigits (a : Nat) (n : Nat) : Nat :=
  if n < 10 then a * 10 + n
  else pushDigits a (n / 10) * 10 + n % 10
termination_by n
decreasing_by exact Nat.div_lt_self (by omega) (by omega)

/-! ## Claim theorems: access control (C1, C4, C5, C6) -/

/-- C1: the claim says `canSeeMetrics` is always false for an individual or
guest viewer (one with no `orgContext`), and the code's own comment (lines
1926-1928) promises the same guard; but the JS strict equality
`selectedItem.brand.orgId === currentUser?.orgContext?.orgId` compares two
`undefined` values as equal, so a guest viewing an asset whose `brand` record
was created without an `orgId` (date/price inputs, lines 1660-1663) gets
`canSeeMetrics = true`. -/
theorem canSeeMetrics_guest_undefined_orgId :
    guestUser.orgContext = none ∧ guestUser.accountType = some "guest" ∧
      canSeeMetrics false (some assetNoOrgId) (some guestUser) = true :=
  ⟨rfl, rfl, rfl⟩

/-- C4: the claim (and the header comment, line 5, and the panel's own comment
at line 1928) says the brand-mode toggle and brand panel are hidden for guest
and individual viewers; but in the world view of `SceneContent` the Brand Mode
button (line 2960) and the brand panel (line 2812) are gated only by
`masterFlags.enableBrandMode`, never by the viewer, even though
`canSeeBrandMode` is false for a guest. -/
theorem brandMode_world_visible_to_guest :
    canSeeBrandMode false (some guestUser) = false ∧
      (sceneVisibility DEFAULT_MASTER_FLAGS false (some guestUser) true uiBrandOpen).brandModeButton = true ∧
      (sceneVisibility DEFAULT_MASTER_FLAGS false (some guestUser) true uiBrandOpen).brandPanel = true :=
  ⟨rfl, rfl, rfl⟩

/-- C5: the claim (and the header comment, line 22) says the daily missions
and rewards vault UI for guests is controlled by the `missionsForGuest` flag;
but the flag is declared (line 148) and never read anywhere: the Missions and
Vault buttons (lines 2955-2956) render unconditionally in the world view even
with `missionsForGuest = false`. -/
theorem missions_vault_ignore_flag :
    flagsMissionsOff.missionsForGuest = false ∧
      (sceneVisibility flagsMissionsOff false (some guestUser) true uiBrandOpen).missionsButton = true ∧
      (sceneVisibility flagsMissionsOff false (some guestUser) true uiBrandOpen).vaultButton = true :=
  ⟨rfl, rfl, rfl⟩

/-- C6: the claim (and the header comment, line 21) says the progress drawer
is visible only for `accountType == individual`; but its render conditions
(lines 2807 and 2977) are `!isAdmin && masterFlags.showCustomerProgressDrawer`
and never read the account type: a guest session sees it. -/
theorem progressDrawer_visible_to_guest :
    guestUser.accountType = some "guest" ∧
      (sceneVisibility DEFAULT_MASTER_FLAGS false (some guestUser) true uiBrandOpen).progressDrawer = true ∧
      (sceneVisibility DEFAULT_MASTER_FLAGS false (some guestUser) true uiBrandOpen).progressDrawerToggle = true :=
  ⟨rfl, rfl, rfl⟩

/-! ## Claim theorems: metrics scoping (C2) and log bounding (C7) -/

/-- C2: the header comment (line 7) and the panel comment (lines 1925-1927)
say brand-panel metrics are filtered so that an organization only sees data
for assets it owns; but `brandPreviewPanel`'s aggregate (lines 1932-1938)
counts every event in the analytics log by type alone: with one impression
recorded against `ORG-B`'s placement, an `ORG-A` viewer whose metrics block is
visible is shown `impressions = 1`, while the ownership-filtered aggregate the
claim demands contains nothing (and on the correctly filtered, empty input the
panel would fabricate the demo constant 1250 instead of 0). -/
theorem brandPanelMetrics_ignores_ownership :
    (brandPanelMetrics [evForeign] true).map PanelMetrics.impressions = some 1 ∧
      specScopedEvents sceneOrgB "ORG-A" [evForeign] = [] ∧
      (brandPanelMetrics (specScopedEvents sceneOrgB "ORG-A" [evForeign]) true).map
        PanelMetrics.impressions = some 1250 :=
  ⟨rfl, rfl, rfl⟩

/-- C7 counterexample: `logEvent` (lines 190-194) also pushes every entry that
carries a `campaignId` or `sponsorName` onto the persisted campaign events log
(`KEYS.EVENTS_LOG`) with no cap: appending to a 200-entry campaign events log
yields 201 stored entries, so not every persisted analytics-event log is
bounded by the 200-entry cap. -/
theorem eventsLog_unbounded :
    (logEventCampaign (List.replicate 200 evForeign) evForeign).length = 201 ∧
      200 < (logEventCampaign (List.replicate 200 evForeign) evForeign).length := by
  have h : logEventCampaign (List.replicate 200 evForeign) evForeign
      = List.replicate 200 evForeign ++ [evForeign] := rfl
  constructor
  · rw [h, List.length_append, List.length_replicate, List.length_singleton]
  · rw [h, List.length_append, List.length_replicate, List.length_singleton]
    omega

/-- C7 (amended): the main analytics log (`KEYS.ANALYTICS`, lines 185-189) is
bounded by the 200-entry cap with FIFO eviction — appending at the cap drops
the oldest (head) entry, appending below the cap just appends, and a length
`≤ 200` is preserved — while the campaign events log (`KEYS.EVENTS_LOG`,
lines 190-194) is append-only with no cap. -/
theorem analyticsLog_capped (logs : List AnalyticsEvent) (e : AnalyticsEvent) :
    (logs.length ≤ 200 → (logEventAnalytics logs e).length ≤ 200) ∧
    (logs.length = 200 → logEventAnalytics logs e = logs.tail ++ [e]) ∧
    (logs.length < 200 → logEventAnalytics logs e = logs ++ [e]) ∧
    (jsTruthy e.campaignId = true → logEventCampaign logs e = logs ++ [e]) := by
  have hlen : (logs ++ [e]).length = logs.length + 1 := by simp
  refine ⟨?_, ?_, ?_, ?_⟩
  · intro h
    unfold logEventAnalytics
    by_cases h2 : 200 < (logs ++ [e]).length
    · simp only [h2, if_true]
      rw [List.length_tail, hlen]
      omega
    · simp only [h2, if_false]
      rw [hlen]
      omega
  · intro h
    cases logs with
    | nil => simp at h
    | cons a l =>
      unfold logEventAnalytics
      have h2 : 200 < ((a :: l) ++ [e]).length := by
        simp only [List.length_append, List.length_cons, List.length_singleton]
        simp only [List.length_cons] at h
        omega
      simp only [h2, if_true]
      rfl
  · intro h
    unfold logEventAnalytics
    have h2 : ¬ 200 < (logs ++ [e]).length := by rw [hlen]; omega
    rw [if_neg h2]
  · intro h
    unfold logEventCampaign
    simp [h]

/-- C7 amended-claim witness at a concrete 200-entry log. -/
theorem analyticsLog_capped_witness :
    (List.replicate 200 evForeign).length = 200 ∧
      logEventAnalytics (List.replicate 200 evForeign) evForeign
        = (List.replicate 200 evForeign).tail ++ [evForeign] :=
  ⟨by rw [List.length_replicate],
   (analyticsLog_capped (List.replicate 200 evForeign) evForeign).2.1
     (by rw [List.length_replicate])⟩

/-! ## Claim theorems: flag merge (C8) -/

theorem lookupAssoc_cons {α : Type} (p : String × α) (m : List (String × α)) (k : String) :
    lookupAssoc (p :: m) k = if p.1 == k then some p.2 else lookupAssoc m k := by
  by_cases h : p.1 == k <;> simp [lookupAssoc, List.find?_cons, h]

theorem lookupAssoc_append {α : Type} (m1 m2 : List (String × α)) (k : String) :
    lookupAssoc (m1 ++ m2) k =
      match lookupAssoc m1 k with
      | some v => some v
      | none => lookupAssoc m2 k := by
  induction m1 with
  | nil => rfl
  | cons p rest ih =>
    rw [List.cons_append, lookupAssoc_cons, lookupAssoc_cons]
    by_cases h : p.1 == k
    · simp [h]
    · simp [h, ih]

theorem lookupAssoc_isSome_of_mem {α : Type} (m : List (String × α)) (p : String × α)
    (hm : p ∈ m) : (lookupAssoc m p.1).isSome := by
  induction m with
  | nil => cases hm
  | cons q rest ih =>
    rw [lookupAssoc_cons]
    by_cases h : q.1 == p.1
    · simp [h]
    · rcases List.mem_cons.mp hm with h1 | h1
      · subst h1
        simp at h
      · simp [h, ih h1]

theorem lookupAssoc_map_keyed {α β : Type} (m : List (String × α)) (g : String × α → β)
    (k : String) :
    lookupAssoc (m.map (fun p => (p.1, g p))) k =
      (m.find? (fun q => q.1 == k)).map g := by
  induction m with
  | nil => rfl
  | cons p rest ih =>
    rw [List.map_cons, lookupAssoc_cons, List.find?_cons]
    by_cases h : p.1 == k
    · simp [h]
    · simp [h, ih]

theorem find?_key_self_of_nodup {α : Type} (m : List (String × α)) (p : String × α)
    (hm : p ∈ m) (hnd : (m.map Prod.fst).Nodup) :
    m.find? (fun q => q.1 == p.1) = some p := by
  induction m with
  | nil => cases hm
  | cons q rest ih =>
    rw [List.map_cons, List.nodup_cons] at hnd
    rw [List.find?_cons]
    rcases List.mem_cons.mp hm with h1 | h1
    · subst h1
      simp
    · have hq : (q.1 == p.1) = false := by
        rw [beq_eq_false_iff_ne]
        intro he
        exact hnd.1 (he ▸ List.mem_map_of_mem Prod.fst h1)
      simp only [hq]
      exact ih h1 hnd.2

/-- C8: the flag merge `mergedFlags = \x7b ...defaults, ...stored \x7d`
(CityScene.jsx line 2539) is idempotent: merging the defaults with an already
merged object returns the merged object unchanged (JS objects have distinct
keys, whence the `Nodup` hypothesis on the defaults' keys). -/
theorem mergeFlags_idempotent (defaults stored : List (String × Bool))
    (hnd : (defaults.map Prod.fst).Nodup) :
    mergeFlags defaults (mergeFlags defaults stored) = mergeFlags defaults stored := by
  unfold mergeFlags spreadObj
  congr 1
  · apply List.map_congr_left
    intro p hp
    have hmapped :
        lookupAssoc (defaults.map (fun q => (q.1, (lookupAssoc stored q.1).getD q.2))) p.1
          = some ((lookupAssoc stored p.1).getD p.2) := by
      rw [lookupAssoc_map_keyed, find?_key_self_of_nodup defaults p hp hnd]
      rfl
    rw [lookupAssoc_append, hmapped]
    rfl
  · rw [List.filter_append]
    have h1 : (defaults.map (fun q => (q.1, (lookupAssoc stored q.1).getD q.2))).filter
        (fun p => (lookupAssoc defaults p.1).isNone) = [] := by
      rw [List.filter_eq_nil_iff]
      intro p hp
      rcases List.mem_map.mp hp with ⟨q, hq, rfl⟩
      have h2 := lookupAssoc_isSome_of_mem defaults q hq
      intro hcon
      rw [Option.isNone_iff_eq_none] at hcon
      rw [hcon] at h2
      simp at h2
    have h3 : (stored.filter (fun p => (lookupAssoc defaults p.1).isNone)).filter
        (fun p => (lookupAssoc defaults p.1).isNone) =
        stored.filter (fun p => (lookupAssoc defaults p.1).isNone) := by
      rw [List.filter_eq_self]
      intro p hp
      exact (List.mem_filter.mp hp).2
    rw [h1, h3, List.nil_append]

/-- C8 witness: idempotence at a concrete defaults/stored pair. -/
theorem mergeFlags_idempotent_witness :
    (flagsDefaultsKV.map Prod.fst).Nodup ∧
      mergeFlags flagsDefaultsKV (mergeFlags flagsDefaultsKV flagsStoredKV)
        = mergeFlags flagsDefaultsKV flagsStoredKV :=
  ⟨by decide, mergeFlags_idempotent flagsDefaultsKV flagsStoredKV (by decide)⟩

/-! ## Claim theorems: user migration (C9) -/

/-- C9: after the users migration (CityScene.jsx lines 2547-2550) every user
record has a non-null role — a user whose stored `role` is falsy is assigned
the baseline `ROLES.VISITOR` — and every user that already had a (truthy) role
is left unchanged at its position in the list. -/
theorem migrateUsers_roles (users : List User) :
    (∀ u ∈ migrateUsers users, u.role ≠ none) ∧
    (∀ (i : Nat) (u : User), users[i]? = some u → jsTruthy u.role = true →
      (migrateUsers users)[i]? = some u) := by
  constructor
  · intro u hu
    rw [migrateUsers, List.mem_map] at hu
    obtain ⟨v, hv, rfl⟩ := hu
    cases h : jsTruthy v.role with
    | false => simp [h]
    | true =>
      cases hr : v.role with
      | none => rw [hr] at h; simp [jsTruthy] at h
      | some s => simp [h, hr]
  · intro i u hi htruthy
    rw [migrateUsers, List.getElem?_map, hi]
    simp [htruthy]

/-- C9 witness: at a concrete stored list, the role-less user ends up with the
VISITOR role, and the user that already had a role is unchanged in place. -/
theorem migrateUsers_roles_witness :
    (migrateUsers usersBefore)[1]? = some userWithRole ∧
      ({ userNoRole with role := some "VISITOR" } : User).role ≠ none :=
  ⟨(migrateUsers_roles usersBefore).2 1 userWithRole (by rfl) (by decide),
   (migrateUsers_roles usersBefore).1 { userNoRole with role := some "VISITOR" } (by decide)⟩

/-! ## Claim theorems: campaign aggregation and CTR (C3) -/

theorem applyEvent_campaignId (a : CampaignAgg) (e : AnalyticsEvent) :
    (applyEvent a e).campaignId = a.campaignId := by
  unfold applyEvent
  by_cases h1 : e.type == "billboard_impression" <;>
    by_cases h2 : e.type == "billboard_click" <;>
      by_cases h3 : e.type == "billboard_dwell" <;>
        simp [h1, h2, h3]

theorem applyEvent_impressions (a : CampaignAgg) (e : AnalyticsEvent) :
    (applyEvent a e).impressions =
      a.impressions + (if e.type == "billboard_impression" then 1 else 0) := by
  unfold applyEvent
  by_cases h1 : e.type == "billboard_impression" <;>
    by_cases h2 : e.type == "billboard_click" <;>
      by_cases h3 : e.type == "billboard_dwell" <;>
        simp [h1, h2, h3]

theorem applyEvent_clicks (a : CampaignAgg) (e : AnalyticsEvent) :
    (applyEvent a e).clicks =
      a.clicks + (if e.type == "billboard_click" then 1 else 0) := by
  unfold applyEvent
  by_cases h1 : e.type == "billboard_impression" <;>
    by_cases h2 : e.type == "billboard_click" <;>
      by_cases h3 : e.type == "billboard_dwell" <;>
        simp [h1, h2, h3]

theorem foldl_applyEvent_impressions (es : List AnalyticsEvent) (a : CampaignAgg) :
    (es.foldl applyEvent a).impressions =
      a.impressions + (es.filter (fun e => e.type == "billboard_impression")).length := by
  induction es generalizing a with
  | nil => simp
  | cons e es ih =>
    rw [List.foldl_cons, ih, applyEvent_impressions]
    by_cases h : e.type == "billboard_impression" <;>
      simp [h, List.filter_cons] <;> omega

theorem foldl_applyEvent_clicks (es : List AnalyticsEvent) (a : CampaignAgg) :
    (es.foldl applyEvent a).clicks =
      a.clicks + (es.filter (fun e => e.type == "billboard_click")).length := by
  induction es generalizing a with
  | nil => simp
  | cons e es ih =>
    rw [List.foldl_cons, ih, applyEvent_clicks]
    by_cases h : e.type == "billboard_click" <;>
      simp [h, List.filter_cons] <;> omega

theorem lookupAssoc_updateAssoc_self {α : Type} (m : List (String × α)) (k : String)
    (f : α → α) (dflt : α) :
    lookupAssoc (updateAssoc m k f dflt) k = some (f ((lookupAssoc m k).getD dflt)) := by
  induction m with
  | nil => simp [updateAssoc, lookupAssoc_cons, lookupAssoc]
  | cons p rest ih =>
    unfold updateAssoc
    by_cases h : p.1 = k
    · subst h
      simp [lookupAssoc_cons]
    · rw [if_neg h]
      have hb : (p.1 == k) = false := by
        rw [beq_eq_false_iff_ne]
        exact h
      simp [lookupAssoc_cons, hb, ih]

theorem lookupAssoc_updateAssoc_other {α : Type} (m : List (String × α)) (k k' : String)
    (f : α → α) (dflt : α) (hne : k' ≠ k) :
    lookupAssoc (updateAssoc m k f dflt) k' = lookupAssoc m k' := by
  have hb : (k == k') = false := by
    rw [beq_eq_false_iff_ne]
    exact fun hc => hne hc.symm
  induction m with
  | nil => simp [updateAssoc, lookupAssoc_cons, lookupAssoc, hb]
  | cons p rest ih =>
    unfold updateAssoc
    by_cases h : p.1 = k
    · subst h
      simp [lookupAssoc_cons, hb]
    · rw [if_neg h]
      simp [lookupAssoc_cons, ih]

theorem lookup_buildCampaign (logs : List AnalyticsEvent) :
    ∀ (acc : List (String × CampaignAgg)) (cid : String),
    lookupAssoc (logs.foldl stepCampaign acc) cid =
      match lookupAssoc acc cid, eventsFor logs cid with
      | some a, es => some (es.foldl applyEvent a)
      | none, [] => none
      | none, e :: es => some (es.foldl applyEvent (applyEvent (initAgg e) e)) := by
  induction logs with
  | nil =>
    intro acc cid
    simp only [List.foldl_nil, eventsFor, List.filter_nil]
    cases lookupAssoc acc cid <;> rfl
  | cons e logs ih =>
    intro acc cid
    rw [List.foldl_cons, ih]
    by_cases h : orDefault e.campaignId "N/A" = cid
    · have hev : eventsFor (e :: logs) cid = e :: eventsFor logs cid := by
        simp [eventsFor, List.filter_cons, h]
      have hstep : lookupAssoc (stepCampaign acc e) cid
          = some (applyEvent ((lookupAssoc acc cid).getD (initAgg e)) e) := by
        unfold stepCampaign
        rw [h, lookupAssoc_updateAssoc_self]
      rw [hev, hstep]
      cases hacc : lookupAssoc acc cid with
      | some a => rfl
      | none => rfl
    · have hb : (orDefault e.campaignId "N/A" == cid) = false := by
        rw [beq_eq_false_iff_ne]
        exact h
      have hev : eventsFor (e :: logs) cid = eventsFor logs cid := by
        simp [eventsFor, List.filter_cons, hb]
      have hstep : lookupAssoc (stepCampaign acc e) cid = lookupAssoc acc cid := by
        unfold stepCampaign
        exact lookupAssoc_updateAssoc_other _ _ _ _ _ (fun hc => h hc.symm)
      rw [hev, hstep]

theorem updateAssoc_forall {α : Type} (P : String × α → Prop) (m : List (String × α))
    (k : String) (f : α → α) (dflt : α)
    (hm : ∀ p ∈ m, P p) (hupd : ∀ q ∈ m, P q → P (q.1, f q.2)) (hnew : P (k, f dflt)) :
    ∀ p ∈ updateAssoc m k f dflt, P p := by
  induction m with
  | nil =>
    intro p hp
    rw [updateAssoc, List.mem_singleton] at hp
    rw [hp]
    exact hnew
  | cons q rest ih =>
    intro p hp
    unfold updateAssoc at hp
    by_cases h : q.1 = k
    · rw [if_pos h] at hp
      rcases List.mem_cons.mp hp with h1 | h1
      · rw [h1]
        exact hupd q (List.mem_cons_self q rest) (hm q (List.mem_cons_self q rest))
      · exact hm p (List.mem_cons_of_mem q h1)
    · rw [if_neg h] at hp
      rcases List.mem_cons.mp hp with h1 | h1
      · rw [h1]
        exact hm q (List.mem_cons_self q rest)
      · exact ih (fun r hr => hm r (List.mem_cons_of_mem q hr))
          (fun r hr hP => hupd r (List.mem_cons_of_mem q hr) hP) p h1

theorem buildCampaign_key_inv (logs : List AnalyticsEvent) :
    ∀ acc, (∀ p ∈ acc, (p.2).campaignId = p.1) →
      ∀ p ∈ logs.foldl stepCampaign acc, (p.2).campaignId = p.1 := by
  induction logs with
  | nil => exact fun acc h => h
  | cons e logs ih =>
    intro acc h
    rw [List.foldl_cons]
    apply ih
    unfold stepCampaign
    refine updateAssoc_forall _ acc _ _ _ h ?_ ?_
    · intro q hq hP
      show (applyEvent q.2 e).campaignId = q.1
      rw [applyEvent_campaignId]
      exact hP
    · show (applyEvent (initAgg e) e).campaignId = orDefault e.campaignId "N/A"
      rw [applyEvent_campaignId]
      rfl

theorem find?_values_eq_lookup (m : List (String × CampaignAgg)) (cid : String)
    (hinv : ∀ p ∈ m, (p.2).campaignId = p.1) :
    (m.map Prod.snd).find? (fun a => a.campaignId == cid) = lookupAssoc m cid := by
  induction m with
  | nil => rfl
  | cons p rest ih =>
    rw [List.map_cons, List.find?_cons, lookupAssoc_cons]
    have hp : (p.2).campaignId = p.1 := hinv p (List.mem_cons_self p rest)
    rw [hp]
    cases h : (p.1 == cid) with
    | true => rfl
    | false =>
      show (rest.map Prod.snd).find? (fun a => a.campaignId == cid) = lookupAssoc rest cid
      exact ih (fun q hq => hinv q (List.mem_cons_of_mem p hq))

theorem campaignCtr_eq (logs : List AnalyticsEvent) (cid : String) :
    campaignCtr logs cid =
      match eventsFor logs cid with
      | [] => 0
      | e :: es => ctrDisplay (es.foldl applyEvent (applyEvent (initAgg e) e)) := by
  unfold campaignCtr metricsByCampaign buildCampaignMap
  rw [find?_values_eq_lookup _ cid (buildCampaign_key_inv logs [] (by intro p hp; cases hp))]
  rw [lookup_buildCampaign logs [] cid]
  have h0 : lookupAssoc ([] : List (String × CampaignAgg)) cid = none := rfl
  rw [h0]
  cases eventsFor logs cid <;> rfl

theorem bucket_counts (logs : List AnalyticsEvent) (cid : String) (e : AnalyticsEvent)
    (es : List AnalyticsEvent) (h : eventsFor logs cid = e :: es) :
    ((es.foldl applyEvent (applyEvent (initAgg e) e)).impressions
        = countEvents logs "billboard_impression" cid) ∧
    ((es.foldl applyEvent (applyEvent (initAgg e) e)).clicks
        = countEvents logs "billboard_click" cid) := by
  unfold countEvents
  rw [h]
  constructor
  · rw [foldl_applyEvent_impressions, applyEvent_impressions]
    by_cases hty : e.type == "billboard_impression" <;>
      simp [hty, initAgg, List.filter_cons] <;> omega
  · rw [foldl_applyEvent_clicks, applyEvent_clicks]
    by_cases hty : e.type == "billboard_click" <;>
      simp [hty, initAgg, List.filter_cons] <;> omega

/-- C3 (amended): the CTR reported on a campaign's row of the Campaign Metrics
list (line 1579) equals clicks divided by impressions for that campaign — in
particular 10 impression events and 3 click events for campaign `X` give
30% — and it is 0 when the campaign has 0 impression events, with no division
error; the brand-panel preview metrics (lines 1932-1938), however, substitute
the demo fallbacks 1250 impressions / 85 clicks when a count is zero, so on an
empty log they report CTR 34/5 = 6.8%, not 0. -/
theorem campaignCtr_correct (logs : List AnalyticsEvent) (cid : String) :
    (0 < countEvents logs "billboard_impression" cid →
      campaignCtr logs cid =
        (countEvents logs "billboard_click" cid : ℚ) /
          (countEvents logs "billboard_impression" cid : ℚ) * 100) ∧
    (countEvents logs "billboard_impression" cid = 10 →
      countEvents logs "billboard_click" cid = 3 →
      campaignCtr logs cid = 30) ∧
    (countEvents logs "billboard_impression" cid = 0 → campaignCtr logs cid = 0) ∧
    (brandPanelMetrics [] true).map PanelMetrics.ctr = some ((34 : ℚ) / 5) := by
  have hA : 0 < countEvents logs "billboard_impression" cid →
      campaignCtr logs cid =
        (countEvents logs "billboard_click" cid : ℚ) /
          (countEvents logs "billboard_impression" cid : ℚ) * 100 := by
    intro hpos
    cases hev : eventsFor logs cid with
    | nil =>
      exfalso
      unfold countEvents at hpos
      rw [hev] at hpos
      simp at hpos
    | cons e es =>
      have hb := bucket_counts logs cid e es hev
      rw [campaignCtr_eq, hev]
      show ctrDisplay (es.foldl applyEvent (applyEvent (initAgg e) e)) = _
      unfold ctrDisplay
      rw [hb.1, hb.2, if_pos hpos]
  refine ⟨hA, ?_, ?_, ?_⟩
  · intro h10 h3
    rw [hA (by rw [h10]; norm_num), h10, h3]
    norm_num
  · intro h0
    cases hev : eventsFor logs cid with
    | nil => rw [campaignCtr_eq, hev]
    | cons e es =>
      have hb := bucket_counts logs cid e es hev
      rw [campaignCtr_eq, hev]
      show ctrDisplay (es.foldl applyEvent (applyEvent (initAgg e) e)) = _
      unfold ctrDisplay
      rw [hb.1, h0]
      norm_num
  · simp [brandPanelMetrics]
    norm_num

/-- C3 counterexample: the claim as stated demands a reported CTR of 0
whenever a campaign has 0 impression events; but on the empty event log (0
impressions everywhere) the brand panel's metrics block (lines 1932-1938)
reports CTR 34/5 = 6.8% out of the demo fallbacks 85/1250. -/
theorem brandPanel_ctr_nonzero_on_empty_log :
    (brandPanelMetrics [] true).map PanelMetrics.ctr = some ((34 : ℚ) / 5) ∧
      ((34 : ℚ) / 5) ≠ 0 := by
  constructor
  · simp [brandPanelMetrics]
    norm_num
  · norm_num

/-- C3 amended-claim witness: a concrete log with 10 impression events and 3
click events for campaign `X` reports CTR 30%. -/
theorem campaignCtr_correct_witness :
    countEvents demoLogs "billboard_impression" "X" = 10 ∧
      countEvents demoLogs "billboard_click" "X" = 3 ∧
      campaignCtr demoLogs "X" = 30 :=
  ⟨rfl, rfl, (campaignCtr_correct demoLogs "X").2.1 rfl rfl⟩

/-! ## Claim theorems: store round trip (C10) -/

theorem digitVal_digitChar (d : Nat) (hd : d < 10) : digitVal (digitChar d) = d := by
  interval_cases d <;> rfl

theorem digitChar_isDigit (d : Nat) (hd : d < 10) : (digitChar d).isDigit = true := by
  interval_cases d <;> decide

theorem foldl_natToDigitsAux (n : Nat) :
    ∀ (acc : List Char) (a : Nat),
      (natToDigitsAux n acc).foldl (fun x c => x * 10 + digitVal c) a
        = acc.foldl (fun x c => x * 10 + digitVal c) (pushDigits a n) := by
  induction n using Nat.strong_induction_on with
  | _ n ih =>
    intro acc a
    unfold natToDigitsAux pushDigits
    by_cases h : n < 10
    · rw [if_pos h, if_pos h, List.foldl_cons, digitVal_digitChar n h]
    · rw [if_neg h, if_neg h,
        ih (n / 10) (Nat.div_lt_self (by omega) (by omega)), List.foldl_cons,
        digitVal_digitChar (n % 10) (Nat.mod_lt n (by omega))]

theorem pushDigits_zero (n : Nat) : pushDigits 0 n = n := by
  induction n using Nat.strong_induction_on with
  | _ n ih =>
    unfold pushDigits
    by_cases h : n < 10
    · rw [if_pos h]
      omega
    · rw [if_neg h, ih (n / 10) (Nat.div_lt_self (by omega) (by omega))]
      omega

theorem digitsToNat_natToDigits (n : Nat) : digitsToNat (natToDigits n) = n := by
  unfold digitsToNat natToDigits
  rw [foldl_natToDigitsAux n [] 0, List.foldl_nil, pushDigits_zero]

theorem natToDigitsAux_ne_nil (n : Nat) : ∀ acc, natToDigitsAux n acc ≠ [] := by
  induction n using Nat.strong_induction_on with
  | _ n ih =>
    intro acc
    unfold natToDigitsAux
    by_cases h : n < 10
    · rw [if_pos h]
      exact List.cons_ne_nil _ _
    · rw [if_neg h]
      exact ih (n / 10) (Nat.div_lt_self (by omega) (by omega)) _

theorem natToDigitsAux_digits (n : Nat) :
    ∀ acc, (∀ c ∈ acc, c.isDigit = true) →
      ∀ c ∈ natToDigitsAux n acc, c.isDigit = true := by
  induction n using Nat.strong_induction_on with
  | _ n ih =>
    intro acc hacc
    unfold natToDigitsAux
    by_cases h : n < 10
    · rw [if_pos h]
      intro c hc
      rcases List.mem_cons.mp hc with h1 | h1
      · rw [h1]
        exact digitChar_isDigit n h
      · exact hacc c h1
    · rw [if_neg h]
      refine ih (n / 10) (Nat.div_lt_self (by omega) (by omega)) _ ?_
      intro c hc
      rcases List.mem_cons.mp hc with h1 | h1
      · rw [h1]
        exact digitChar_isDigit (n % 10) (Nat.mod_lt n (by omega))
      · exact hacc c h1

theorem natToDigits_head (n : Nat) :
    ∃ d ds, natToDigits n = d :: ds ∧ d.isDigit = true := by
  cases h : natToDigits n with
  | nil => exact absurd h (natToDigitsAux_ne_nil n [])
  | cons d ds =>
    refine ⟨d, ds, rfl, ?_⟩
    have := natToDigitsAux_digits n [] (by intro c hc; cases hc) d
    rw [natToDigits] at h
    exact this (h ▸ List.mem_cons_self d ds)

theorem takeWhile_digits (l r : List Char) (hl : ∀ c ∈ l, c.isDigit = true)
    (hr : headNotDigit r) :
    (l ++ r).takeWhile Char.isDigit = l ∧ (l ++ r).dropWhile Char.isDigit = r := by
  induction l with
  | nil =>
    cases r with
    | nil => exact ⟨rfl, rfl⟩
    | cons c r2 =>
      unfold headNotDigit at hr
      constructor
      · rw [List.nil_append, List.takeWhile_cons, hr]
        simp
      · rw [List.nil_append, List.dropWhile_cons, hr]
        simp
  | cons c l ih =>
    have hc := hl c (List.mem_cons_self c l)
    have ih2 := ih (fun d hd => hl d (List.mem_cons_of_mem c hd))
    constructor
    · rw [List.cons_append, List.takeWhile_cons, hc, ih2.1]
      simp
    · rw [List.cons_append, List.dropWhile_cons, hc, ih2.2]
      simp [ih2.2]

theorem parseNumDigits_encode (n : Nat) (rest : List Char) (hr : headNotDigit rest) :
    parseNumDigits (natToDigits n ++ rest) = some (n, rest) := by
  obtain ⟨h1, h2⟩ :=
    takeWhile_digits (natToDigits n) rest
      (natToDigitsAux_digits n [] (by intro c hc; cases hc)) hr
  unfold parseNumDigits
  rw [h1, h2]
  have hne : (natToDigits n).isEmpty = false := by
    cases h : natToDigits n with
    | nil => exact absurd h (natToDigitsAux_ne_nil n [])
    | cons => rfl
  rw [hne]
  simp only [Bool.false_eq_true, if_false]
  rw [digitsToNat_natToDigits]

theorem parseStrBody_cons (c : Char) (r : List Char) :
    parseStrBody (c :: r) =
      if c = '\x22' then some ([], r)
      else if c = '\x5c' then parseStrBodyEsc r
      else (parseStrBody r).map (fun p => (c :: p.1, p.2)) := by
  rw [parseStrBody]

theorem parseStrBody_encode (s : List Char) (rest : List Char) :
    parseStrBody (encStrBody s ++ ('\x22' :: rest)) = some (s, rest) := by
  induction s with
  | nil =>
    rw [encStrBody, List.nil_append, parseStrBody_cons, if_pos rfl]
  | cons c cs ih =>
    rw [encStrBody]
    by_cases h : c = '\x22' ∨ c = '\x5c'
    · rw [encChar, if_pos h]
      show parseStrBody ('\x5c' :: (c :: (encStrBody cs ++ ('\x22' :: rest)))) = _
      rw [parseStrBody_cons, if_neg (by decide), if_pos rfl]
      rw [parseStrBodyEsc, ih]
      rfl
    · rw [encChar, if_neg h]
      push_neg at h
      show parseStrBody (c :: (encStrBody cs ++ ('\x22' :: rest))) = _
      rw [parseStrBody_cons, if_neg h.1, if_neg h.2, ih]
      rfl

theorem encodeJson_ne_nil (v : JsonValue) : encodeJson v ≠ [] := by
  cases v with
  | null => exact List.cons_ne_nil _ _
  | bool b =>
    cases b with
    | true => exact List.cons_ne_nil _ _
    | false => exact List.cons_ne_nil _ _
  | num n =>
    show encInt n ≠ []
    unfold encInt
    by_cases h : n < 0
    · rw [if_pos h]
      exact List.cons_ne_nil _ _
    · rw [if_neg h]
      exact natToDigitsAux_ne_nil _ _
  | str s => exact List.cons_ne_nil _ _
  | arr vs =>
    cases vs with
    | nil => exact List.cons_ne_nil _ _
    | cons v vs => exact List.cons_ne_nil _ _
  | obj kvs =>
    cases kvs with
    | nil => exact List.cons_ne_nil _ _
    | cons kv kvs => exact List.cons_ne_nil _ _

theorem encodeJson_head_ne_rbracket (v : JsonValue) :
    ∃ c cs, encodeJson v = c :: cs ∧ c ≠ ']' := by
  cases v with
  | null => exact ⟨'n', ['u', 'l', 'l'], rfl, by decide⟩
  | bool b =>
    cases b with
    | true => exact ⟨'t', ['r', 'u', 'e'], rfl, by decide⟩
    | false => exact ⟨'f', ['a', 'l', 's', 'e'], rfl, by decide⟩
  | num n =>
    show ∃ c cs, encInt n = c :: cs ∧ c ≠ ']'
    unfold encInt
    by_cases h : n < 0
    · rw [if_pos h]
      exact ⟨'-', natToDigits n.natAbs, rfl, by decide⟩
    · rw [if_neg h]
      obtain ⟨d, ds, hds, hdig⟩ := natToDigits_head n.natAbs
      refine ⟨d, ds, hds, fun hc => ?_⟩
      rw [hc] at hdig
      exact absurd hdig (by decide)
  | str s => exact ⟨'\x22', encStrBody s ++ ['\x22'], rfl, by decide⟩
  | arr vs =>
    cases vs with
    | nil => exact ⟨'[', [']'], rfl, by decide⟩
    | cons v vs => exact ⟨'[', encodeJson v ++ encodeArrRest vs, rfl, by decide⟩
  | obj kvs =>
    cases kvs with
    | nil => exact ⟨'\x7b', ['\x7d'], rfl, by decide⟩
    | cons kv kvs => exact ⟨'\x7b', encodeMember kv ++ encodeObjRest kvs, rfl, by decide⟩

theorem headNotDigit_encodeArrRest (vs : List JsonValue) (rest : List Char) :
    headNotDigit (encodeArrRest vs ++ rest) := by
  cases vs with
  | nil =>
    show (']' : Char).isDigit = false
    decide
  | cons v vs =>
    show (',' : Char).isDigit = false
    decide

theorem headNotDigit_encodeObjRest (kvs : List (List Char × JsonValue)) (rest : List Char) :
    headNotDigit (encodeObjRest kvs ++ rest) := by
  cases kvs with
  | nil =>
    show ('\x7d' : Char).isDigit = false
    decide
  | cons kv kvs =>
    show (',' : Char).isDigit = false
    decide

theorem parse_encode_all (fuel : Nat) :
    (∀ (v : JsonValue) (rest : List Char), (encodeJson v).length ≤ fuel →
      headNotDigit rest → parseVal fuel (encodeJson v ++ rest) = some (v, rest)) ∧
    (∀ (vs : List JsonValue) (rest : List Char), (encodeArrRest vs).length ≤ fuel →
      parseArrRest fuel (encodeArrRest vs ++ rest) = some (vs, rest)) ∧
    (∀ (kv : List Char × JsonValue) (rest : List Char), (encodeMember kv).length ≤ fuel →
      headNotDigit rest → parseMember fuel (encodeMember kv ++ rest) = some (kv, rest)) ∧
    (∀ (kvs : List (List Char × JsonValue)) (rest : List Char),
      (encodeObjRest kvs).length ≤ fuel →
      parseObjRest fuel (encodeObjRest kvs ++ rest) = some (kvs, rest)) := by
  induction fuel with
  | zero =>
    refine ⟨?_, ?_, ?_, ?_⟩
    · intro v rest hsz hrest
      exfalso
      cases h : encodeJson v with
      | nil => exact encodeJson_ne_nil v h
      | cons c cs =>
        rw [h] at hsz
        simp at hsz
    · intro vs rest hsz
      exfalso
      cases vs with
      | nil => simp [encodeArrRest] at hsz
      | cons v vs => simp [encodeArrRest] at hsz
    · intro kv rest hsz hrest
      exfalso
      obtain ⟨k, vv⟩ := kv
      simp [encodeMember] at hsz
    · intro kvs rest hsz
      exfalso
      cases kvs with
      | nil => simp [encodeObjRest] at hsz
      | cons kv kvs => simp [encodeObjRest] at hsz
  | succ fuel ih =>
    obtain ⟨ih1, ih2, ih3, ih4⟩ := ih
    refine ⟨?_, ?_, ?_, ?_⟩
    · intro v rest hsz hrest
      cases v with
      | null =>
        show parseVal (fuel + 1) ('n' :: 'u' :: 'l' :: 'l' :: rest) = _
        simp [parseVal]
      | bool b =>
        cases b with
        | true =>
          show parseVal (fuel + 1) ('t' :: 'r' :: 'u' :: 'e' :: rest) = _
          simp [parseVal]
        | false =>
          show parseVal (fuel + 1) ('f' :: 'a' :: 'l' :: 's' :: 'e' :: rest) = _
          simp [parseVal]
      | num n =>
        show parseVal (fuel + 1) (encInt n ++ rest) = _
        unfold encInt
        by_cases h : n < 0
        · rw [if_pos h]
          show parseVal (fuel + 1) ('-' :: (natToDigits n.natAbs ++ rest)) = _
          simp only [parseVal]
          rw [parseNumDigits_encode n.natAbs rest hrest]
          have hab : -((n.natAbs : Nat) : Int) = n := by omega
          simp [hab]
          rw [abs_of_neg h, neg_neg]
        · rw [if_neg h]
          obtain ⟨d, ds, hds, hdig⟩ := natToDigits_head n.natAbs
          rw [hds, List.cons_append]
          simp only [parseVal]
          rw [if_pos hdig]
          rw [show d :: (ds ++ rest) = natToDigits n.natAbs ++ rest from by
            rw [hds, List.cons_append]]
          rw [parseNumDigits_encode n.natAbs rest hrest]
          have hab : ((n.natAbs : Nat) : Int) = n := by omega
          simp [hab]
      | str s =>
        rw [show encodeJson (.str s) ++ rest
            = '\x22' :: (encStrBody s ++ ('\x22' :: rest)) from by simp [encodeJson]]
        simp only [parseVal]
        rw [parseStrBody_encode s rest]
        simp
      | arr vs =>
        cases vs with
        | nil =>
          show parseVal (fuel + 1) ('[' :: ']' :: rest) = _
          simp [parseVal]
        | cons v vs =>
          rw [show encodeJson (.arr (v :: vs)) ++ rest
              = '[' :: (encodeJson v ++ (encodeArrRest vs ++ rest)) from by
            simp [encodeJson]]
          simp only [encodeJson] at hsz
          simp only [List.length_cons, List.length_append] at hsz
          have h1 : (encodeJson v).length ≤ fuel := by omega
          have h2 : (encodeArrRest vs).length ≤ fuel := by omega
          have hrec1 := ih1 v (encodeArrRest vs ++ rest) h1 (headNotDigit_encodeArrRest vs rest)
          have hrec2 := ih2 vs rest h2
          obtain ⟨c2, cs2, hv, hne⟩ := encodeJson_head_ne_rbracket v
          rw [hv, List.cons_append]
          rw [hv, List.cons_append] at hrec1
          simp only [parseVal]
          rw [hrec1]
          simp [hne, hrec2]
      | obj kvs =>
        cases kvs with
        | nil =>
          show parseVal (fuel + 1) ('\x7b' :: '\x7d' :: rest) = _
          simp [parseVal]
        | cons kv kvs =>
          rw [show encodeJson (.obj (kv :: kvs)) ++ rest
              = '\x7b' :: (encodeMember kv ++ (encodeObjRest kvs ++ rest)) from by
            simp [encodeJson]]
          simp only [encodeJson] at hsz
          simp only [List.length_cons, List.length_append] at hsz
          obtain ⟨k, vv⟩ := kv
          have h1 : (encodeMember (k, vv)).length ≤ fuel := by
            simp only [encodeMember, List.length_cons, List.length_append] at hsz ⊢
            omega
          have h2 : (encodeObjRest kvs).length ≤ fuel := by
            simp only [encodeMember, List.length_cons, List.length_append] at hsz
            omega
          have hrecM := ih3 (k, vv) (encodeObjRest kvs ++ rest) h1
            (headNotDigit_encodeObjRest kvs rest)
          have hrecO := ih4 kvs rest h2
          rw [show encodeMember (k, vv) ++ (encodeObjRest kvs ++ rest)
              = '\x22' :: ((encStrBody k ++ ('\x22' :: ':' :: encodeJson vv))
                  ++ (encodeObjRest kvs ++ rest)) from rfl]
          rw [show encodeMember (k, vv) ++ (encodeObjRest kvs ++ rest)
              = '\x22' :: ((encStrBody k ++ ('\x22' :: ':' :: encodeJson vv))
                  ++ (encodeObjRest kvs ++ rest)) from rfl] at hrecM
          simp only [parseVal]
          rw [hrecM]
          simp [hrecO]
    · intro vs rest hsz
      cases vs with
      | nil =>
        show parseArrRest (fuel + 1) (']' :: rest) = _
        simp [parseArrRest]
      | cons v vs =>
        rw [show encodeArrRest (v :: vs) ++ rest
            = ',' :: (encodeJson v ++ (encodeArrRest vs ++ rest)) from by
          simp [encodeArrRest]]
        simp only [encodeArrRest, List.length_cons, List.length_append] at hsz
        have h1 : (encodeJson v).length ≤ fuel := by omega
        have h2 : (encodeArrRest vs).length ≤ fuel := by omega
        have hrec1 := ih1 v (encodeArrRest vs ++ rest) h1 (headNotDigit_encodeArrRest vs rest)
        have hrec2 := ih2 vs rest h2
        simp only [parseArrRest]
        rw [hrec1]
        simp [hrec2]
    · intro kv rest hsz hrest
      obtain ⟨k, v⟩ := kv
      rw [show encodeMember (k, v) ++ rest
          = '\x22' :: (encStrBody k ++ ('\x22' :: (':' :: (encodeJson v ++ rest)))) from by
        simp [encodeMember]]
      simp only [encodeMember, List.length_cons, List.length_append] at hsz
      have h1 : (encodeJson v).length ≤ fuel := by omega
      have hrec := ih1 v rest h1 hrest
      simp only [parseMember]
      rw [parseStrBody_encode k (':' :: (encodeJson v ++ rest))]
      simp [hrec]
    · intro kvs rest hsz
      cases kvs with
      | nil =>
        show parseObjRest (fuel + 1) ('\x7d' :: rest) = _
        simp [parseObjRest]
      | cons kv kvs =>
        rw [show encodeObjRest (kv :: kvs) ++ rest
            = ',' :: (encodeMember kv ++ (encodeObjRest kvs ++ rest)) from by
          simp [encodeObjRest]]
        simp only [encodeObjRest, List.length_cons, List.length_append] at hsz
        have h1 : (encodeMember kv).length ≤ fuel := by omega
        have h2 : (encodeObjRest kvs).length ≤ fuel := by omega
        have hrec1 := ih3 kv (encodeObjRest kvs ++ rest) h1
          (headNotDigit_encodeObjRest kvs rest)
        have hrec2 := ih4 kvs rest h2
        simp only [parseObjRest]
        rw [hrec1]
        simp [hrec2]

theorem jsonParse_encodeJson (v : JsonValue) : jsonParse (encodeJson v) = some v := by
  unfold jsonParse
  have h := (parse_encode_all ((encodeJson v).length + 1)).1 v [] (by omega) trivial
  rw [List.append_nil] at h
  rw [h]

/-- C10: `loadData(key, default)` immediately after `saveData(key, value)`
(CityScene.jsx lines 155-156) returns a value equal to `value`, for every
JSON-safe value — including nested objects and arrays — every store, every
key and every default: the serialized text is non-empty (so the falsy-string
fallback does not fire) and the JSON codec round-trips. -/
theorem loadData_after_saveData (store : List (String × List Char)) (key : String)
    (v d : JsonValue) :
    loadData (saveData store key v) key d = v := by
  unfold saveData loadData setItem
  rw [lookupAssoc_updateAssoc_self]
  show (if (encodeJson v).isEmpty then d
        else match jsonParse (encodeJson v) with
             | some w => w
             | none => d) = v
  have hne : (encodeJson v).isEmpty = false := by
    cases h : encodeJson v with
    | nil => exact absurd h (encodeJson_ne_nil v)
    | cons c cs => rfl
  rw [hne]
  simp only [Bool.false_eq_true, if_false]
  rw [jsonParse_encodeJson]
